import Mathlib

/-!
Verification of the georeferencing-transform and TOA-calibration core of the
`gbdxtools` repository (`gbdxtools/ipe/util.py`), shallowly embedded in Lean.

Numeric values are modelled over `ℚ` (exact arithmetic idealising IEEE floats)
for the transform engine and over `ℝ` for the calibration engine, which uses
`π` and `cos`.  Numpy arrays of coordinates are modelled as lists of
rationals/pairs; numpy's broadcasting of arithmetic over coordinate arrays is
elementwise, so array pipelines are embedded as elementwise maps over lists.
Python exceptions are modelled with `Except` over an explicit error type.
-/

namespace Gbdx

/-- Python exceptions raised by the embedded code paths.  Note that
`raise NotImplemented` in Python 2 raises a `TypeError` (the
`NotImplemented` singleton is not an exception class); we record that
outcome as `typeError`. -/
inductive PyErr where
  | valueError
  | typeError
  | assertionError
  | notImplementedError
deriving DecidableEq

/-- Truncation of a rational toward zero, as a C-style float-to-int cast
does.  `Int` division in Lean truncates toward zero, and `q.den > 0`. -/
def ratTrunc (q : ℚ) : ℤ :=
  q.num / (q.den : ℤ)

/-- numpy's `astype(np.int32)`: truncate toward zero, then wrap into the
signed 32-bit range. -/
def int32cast (q : ℚ) : ℤ :=
  (ratTrunc q + 2 ^ 31) % 2 ^ 32 - 2 ^ 31

/-- The rational-polynomial transform of `gbdxtools/ipe/util.py`
(`RatPolyTransform.__init__`): numerator and denominator coefficient
matrices `A`, `B` (row 0 = line, row 1 = sample), geographic offset and
scale 3-vectors (longitude, latitude, height), pixel offset and scale
2-vectors (line, sample), and an optional spatial-reference-system string
(`proj`, Python `None` modelled as `none`).

`__init__` also derives the stacked arrays `_offscl`, `_offscl_rev`,
`_px_offscl_rev`, `_px_offscl` and the pseudo-inverse `_A_rev`; the stacked
arrays are the definitions `offscl` &c. below, and `_A_rev` (numpy
`pinv(AᵀA)·Aᵀ`, an external linear-algebra routine) is abstracted as an
explicit argument of `fwdPoint`. -/
structure RatPolyTransform where
  A : Fin 2 → Fin 20 → ℚ
  B : Fin 2 → Fin 20 → ℚ
  offset : Fin 3 → ℚ
  scale : Fin 3 → ℚ
  px_offset : Fin 2 → ℚ
  px_scale : Fin 2 → ℚ
  proj : Option String

/-- `self._offscl = np.vstack([offset, scale])` (row 0 = offset, row 1 = scale). -/
def RatPolyTransform.offscl (T : RatPolyTransform) : Fin 2 → Fin 3 → ℚ :=
  ![T.offset, T.scale]

/-- `self._offscl_rev = np.vstack([-offset/scale, 1.0/scale])`. -/
def RatPolyTransform.offscl_rev (T : RatPolyTransform) : Fin 2 → Fin 3 → ℚ :=
  ![fun i => -T.offset i / T.scale i, fun i => 1 / T.scale i]

/-- `self._px_offscl_rev = np.vstack([px_offset, px_scale])`. -/
def RatPolyTransform.px_offscl_rev (T : RatPolyTransform) : Fin 2 → Fin 2 → ℚ :=
  ![T.px_offset, T.px_scale]

/-- `self._px_offscl = np.vstack([-px_offset/px_scale, 1.0/px_scale])`. -/
def RatPolyTransform.px_offscl (T : RatPolyTransform) : Fin 2 → Fin 2 → ℚ :=
  ![fun j => -T.px_offset j / T.px_scale j, fun j => 1 / T.px_scale j]

/-- `RatPolyTransform._rpc`: the 20-term cubic rational-polynomial basis, in
the source's `np.dstack` order. -/
def rpcTerms (L P H : ℚ) : Fin 20 → ℚ :=
  ![1, L, P, H, L*P, L*H, P*H, L^2, P^2, H^2,
    L*P*H, L^3, L*(P^2), L*(H^2), (L^2)*P, P^3, P*(H^2),
    (L^2)*H, (P^2)*H, H^3]

/-- One point of `RatPolyTransform.rev` after input wrapping: the numpy
pipeline `coord * scale + offset`, `X = self._rpc(normed)`,
`np.inner(A, X) / np.inner(B, X)`, `result * rev_scale + rev_offset`
(with `rev_offset, rev_scale = np.vsplit(self._px_offscl_rev, 2)`), and the
final `astype(_type)` cast, evaluated at a single `(lng, lat, z)` triple.
The whole array pipeline is elementwise in the input triples, so the array
case is `revList` below mapping this over the coordinate lists. -/
def RatPolyTransform.revPoint (T : RatPolyTransform) (castFn : ℚ → ℤ)
    (lng lat z : ℚ) : ℤ × ℤ :=
  let coord : Fin 3 → ℚ := ![lng, lat, z]
  let normed : Fin 3 → ℚ := fun i => coord i * T.offscl 1 i + T.offscl 0 i
  let X : Fin 20 → ℚ := rpcTerms (normed 0) (normed 1) (normed 2)
  let result : Fin 2 → ℚ :=
    fun j => (∑ k, T.A j k * X k) / (∑ k, T.B j k * X k)
  (castFn (result 0 * T.px_offscl_rev 1 0 + T.px_offscl_rev 0 0),
   castFn (result 1 * T.px_offscl_rev 1 1 + T.px_offscl_rev 0 1))

/-- `RatPolyTransform.rev` with the default `_type=np.int32` output cast. -/
def RatPolyTransform.revPointDefault (T : RatPolyTransform)
    (lng lat z : ℚ) : ℤ × ℤ :=
  T.revPoint int32cast lng lat z

/-- The 20-term basis exactly as the specification lists it:
(1, L, P, H, LP, LH, PH, L², P², H², LPH, L³, LP², LH², L²P, P³, PH²,
L²H, P²H, H³). -/
def rpcBasisSpec (L P H : ℚ) : Fin 20 → ℚ :=
  ![1, L, P, H, L*P, L*H, P*H, L^2, P^2, H^2,
    L*P*H, L^3, L*P^2, L*H^2, L^2*P, P^3, P*H^2,
    L^2*H, P^2*H, H^3]

/-- The reverse transform as the specification words it: normalize the
geographic coordinates with the stored geographic offset/scale, evaluate the
20-term basis for the numerator and denominator coefficient matrices, divide
numerator by denominator element-wise, denormalize with the pixel
offset/scale, and cast with the requested output cast. -/
def RatPolyTransform.revPointSpec (T : RatPolyTransform) (castFn : ℚ → ℤ)
    (lng lat z : ℚ) : ℤ × ℤ :=
  let L : ℚ := lng * T.scale 0 + T.offset 0
  let P : ℚ := lat * T.scale 1 + T.offset 1
  let H : ℚ := z * T.scale 2 + T.offset 2
  let num : Fin 2 → ℚ := fun j => ∑ k, T.A j k * rpcBasisSpec L P H k
  let den : Fin 2 → ℚ := fun j => ∑ k, T.B j k * rpcBasisSpec L P H k
  (castFn ((num 0 / den 0) * T.px_scale 0 + T.px_offset 0),
   castFn ((num 1 / den 1) * T.px_scale 1 + T.px_offset 1))

/-- One point of `RatPolyTransform.fwd` (the scalar branch): normalize the
pixel coordinate with
`np.sum(self._px_offscl * np.vstack([ones, coord]), axis=0)`, apply the
cached least-squares pseudo-inverse `self._A_rev` (numpy
`pinv(AᵀA)·Aᵀ`, abstracted here as the argument `A_rev` since its value is
produced by an external linear-algebra routine) and keep basis positions
`[1, 2, 3]` (the L, P, H slots), then denormalize with
`np.sum(self._offscl_rev * np.vstack([ones, coord]), axis=0)`.  The `z`
argument of `fwd` is unused by the scalar branch and omitted. -/
def RatPolyTransform.fwdPoint (T : RatPolyTransform)
    (A_rev : Fin 20 → Fin 2 → ℚ) (x y : ℚ) : ℚ × ℚ × ℚ :=
  let coord : Fin 2 → ℚ := ![x, y]
  let normed : Fin 2 → ℚ :=
    fun j => ∑ r, T.px_offscl r j * (![fun _ => (1 : ℚ), coord] r j)
  let c : Fin 3 → ℚ :=
    fun i => ∑ j, A_rev ⟨i.val + 1, by omega⟩ j * normed j
  let out : Fin 3 → ℚ :=
    fun i => ∑ r, T.offscl_rev r i * (![fun _ => (1 : ℚ), c] r i)
  (out 0, out 1, out 2)

/-- The `Sequence` branch of `RatPolyTransform.fwd`: the source iterates the
zipped inputs with a list comprehension that recursively calls the scalar
`fwd` on each element (`[self.fwd(x_i, y_i, z_i) for x_i, y_i, z_i in
izip(x, y, z)]`); `izip` truncates to the shorter input.  The trailing
`np.transpose`/`np.asarray` repacking of the per-element triples is
abstracted away: the result is the list of per-element triples. -/
def RatPolyTransform.fwdList (T : RatPolyTransform)
    (A_rev : Fin 20 → Fin 2 → ℚ) : List ℚ → List ℚ → List (ℚ × ℚ × ℚ)
  | x :: xs, y :: ys => T.fwdPoint A_rev x y :: T.fwdList A_rev xs ys
  | _, _ => []

/-- The array case of `RatPolyTransform.rev`: every numpy operation in the
`rev` pipeline (broadcasted arithmetic, `_rpc`, `np.inner` against the 2×20
coefficient matrices, elementwise division) computes each output pixel pair
from the corresponding `(lng, lat, z)` input triple alone, so the pipeline
over 1-D coordinate arrays is the elementwise `revPoint` computation over
the zipped inputs. -/
def RatPolyTransform.revList (T : RatPolyTransform) (castFn : ℚ → ℤ) :
    List ℚ → List ℚ → List ℚ → List (ℤ × ℤ)
  | l :: ls, p :: ps, z :: zs =>
      T.revPoint castFn l p z :: T.revList castFn ls ps zs
  | _, _, _ => []

/-- `RatPolyTransform.__add__`: for a length-2 `Sequence` shift, a new
transform is constructed as `RatPolyTransform(A, B, offset, scale,
px_offset - shift, px_scale)` — the `proj` argument is omitted, so it takes
the constructor default `None`.  For any other argument the source executes
`raise NotImplemented`, which in Python 2 raises a `TypeError`. -/
def RatPolyTransform.add (T : RatPolyTransform) :
    List ℚ → Except PyErr RatPolyTransform
  | [a, b] =>
      .ok ⟨T.A, T.B, T.offset, T.scale,
           fun j => T.px_offset j - ![a, b] j, T.px_scale, none⟩
  | _ => .error .typeError

/-- `RatPolyTransform.__sub__`: `self.__add__(-other)` raises a `TypeError`
when `other` is a Python list or tuple (sequences have no unary minus), so
the bare `except` falls through to `self.__add__([-e for e in other])`,
the elementwise negation. -/
def RatPolyTransform.sub (T : RatPolyTransform) (other : List ℚ) :
    Except PyErr RatPolyTransform :=
  T.add (other.map (fun e => -e))

/-- The RPC coefficient metadata record consumed by
`RatPolyTransform.from_rpcs` (field names as in the source's `rpcs` dict). -/
structure RpcMeta where
  lineNumCoefs : Fin 20 → ℚ
  sampleNumCoefs : Fin 20 → ℚ
  lineDenCoefs : Fin 20 → ℚ
  sampleDenCoefs : Fin 20 → ℚ
  lonScale : ℚ
  latScale : ℚ
  heightScale : ℚ
  lonOffset : ℚ
  latOffset : ℚ
  heightOffset : ℚ
  lineScale : ℚ
  sampleScale : ℚ
  lineOffset : ℚ
  sampleOffset : ℚ
  spatialReferenceSystem : String

/-- `RatPolyTransform.from_rpcs`: stack the line and sample numerator
(denominator) coefficient rows into `P` (`Q`), take the reciprocal per-axis
geographic scale, `-offset * scale` geographic offset, the direct pixel
scale/offset, and pass the spatial-reference-system string through. -/
def RatPolyTransform.fromRpcs (m : RpcMeta) : RatPolyTransform :=
  ⟨![m.lineNumCoefs, m.sampleNumCoefs],
   ![m.lineDenCoefs, m.sampleDenCoefs],
   ![-m.lonOffset * (1 / m.lonScale),
     -m.latOffset * (1 / m.latScale),
     -m.heightOffset * (1 / m.heightScale)],
   ![1 / m.lonScale, 1 / m.latScale, 1 / m.heightScale],
   ![m.lineOffset, m.sampleOffset],
   ![m.lineScale, m.sampleScale],
   some m.spatialReferenceSystem⟩

/-- A 6-parameter affine map from the `affine` dependency, stored row-major:
`(x, y) ↦ (a·x + b·y + c, d·x + e·y + f)` (the third matrix row is `0 0 1`). -/
structure AffineM where
  a : ℚ
  b : ℚ
  c : ℚ
  d : ℚ
  e : ℚ
  f : ℚ
deriving DecidableEq

/-- `Affine * (x, y)`: apply the affine map to a point. -/
def AffineM.applyPt (M : AffineM) (p : ℚ × ℚ) : ℚ × ℚ :=
  (M.a * p.1 + M.b * p.2 + M.c, M.d * p.1 + M.e * p.2 + M.f)

/-- `Affine * Affine`: composition, i.e. the product of the two 3×3 matrices. -/
def AffineM.mul (M N : AffineM) : AffineM :=
  ⟨M.a * N.a + M.b * N.d, M.a * N.b + M.b * N.e, M.a * N.c + M.b * N.f + M.c,
   M.d * N.a + M.e * N.d, M.d * N.b + M.e * N.e, M.d * N.c + M.e * N.f + M.f⟩

/-- `Affine.translation(tx, ty)`. -/
def AffineM.translation (tx ty : ℚ) : AffineM :=
  ⟨1, 0, tx, 0, 1, ty⟩

/-- `Affine.determinant`. -/
def AffineM.det (M : AffineM) : ℚ :=
  M.a * M.e - M.b * M.d

/-- `Affine.__invert__` of the `affine` dependency, coefficient by
coefficient (the library raises on a degenerate matrix; over `ℚ` the
definition is total with `1/0 = 0`, and every theorem about it assumes
`det ≠ 0`). -/
def AffineM.inv (M : AffineM) : AffineM :=
  let idet := 1 / M.det
  let ra := M.e * idet
  let rb := -M.b * idet
  let rd := -M.d * idet
  let re := M.a * idet
  ⟨ra, rb, -M.c * ra - M.f * rb, rd, re, -M.c * rd - M.f * re⟩

/-- The affine transform of `gbdxtools/ipe/util.py` (`AffineTransform`):
the affine matrix and the optional spatial-reference-system string.  The
lazily-cached `_iaffine` is observationally the value `affine.inv` and is
modelled by using that value where the source reads the cache. -/
structure AffineTransform where
  affine : AffineM
  proj : Option String

/-- `AffineTransform.__add__`: compose with a translation for a length-2
`Sequence` shift, passing `proj=self.proj` through; otherwise
`raise NotImplemented` (a `TypeError` in Python 2). -/
def AffineTransform.add (T : AffineTransform) :
    List ℚ → Except PyErr AffineTransform
  | [s0, s1] => .ok ⟨T.affine.mul (AffineM.translation s0 s1), T.proj⟩
  | _ => .error .typeError

/-- `AffineTransform.__sub__`: as in the RPC variant, `-other` on a Python
sequence raises, and the bare `except` adds the elementwise negation. -/
def AffineTransform.sub (T : AffineTransform) (other : List ℚ) :
    Except PyErr AffineTransform :=
  T.add (other.map (fun e => -e))

/-- A numpy array with its shape; the payload is the flat (row-major) data.
Only rank and the second dimension are inspected by the entry points
modelled here. -/
structure NpArr where
  shape : List ℕ
  data : List ℚ
deriving DecidableEq

/-- Rows of an N×2 array read off its flat data. -/
def toPairs : List ℚ → List (ℚ × ℚ)
  | x :: y :: rest => (x, y) :: toPairs rest
  | _ => []

/-- Flatten rows back into flat N×2 array data. -/
def unPairs : List (ℚ × ℚ) → List ℚ
  | [] => []
  | p :: rest => p.1 :: p.2 :: unPairs rest

/-- `RatPolyTransform.__call__`: the source is Python 2, and its
`except ValueError, AssertionError:` clause catches only `ValueError`
(binding it to the name `AssertionError`).  So a non-2-D array fails the
tuple unpacking `d0, d1 = coords.shape` with a `ValueError` that is caught
and re-raised as `NotImplementedError`, while a 2-D array whose second
dimension is not 2 fails `assert d1 == 2` with an uncaught
`AssertionError`.  On a well-shaped array it calls `self.fwd` on the two
split columns, which recurses element-wise down to the scalar branch; the
output repacking (`np.transpose`) is abstracted to the list of per-row
results. -/
def RatPolyTransform.call (T : RatPolyTransform)
    (A_rev : Fin 20 → Fin 2 → ℚ) (coords : NpArr) :
    Except PyErr (List (ℚ × ℚ × ℚ)) :=
  match coords.shape with
  | [_, d1] =>
      if d1 = 2 then
        .ok ((toPairs coords.data).map (fun p => T.fwdPoint A_rev p.1 p.2))
      else .error .assertionError
  | _ => .error .notImplementedError

/-- `AffineTransform.__call__`: asserts a 2-D, two-column array, then
applies `self._affine.itransform` to a copy of the rows. -/
def AffineTransform.call (T : AffineTransform) (coords : NpArr) :
    Except PyErr NpArr :=
  match coords.shape with
  | [d0, d1] =>
      if d1 = 2 then
        .ok ⟨[d0, d1], unPairs ((toPairs coords.data).map T.affine.applyPt)⟩
      else .error .assertionError
  | _ => .error .assertionError

/-- `AffineTransform.inverse`: same shape assertion, then applies the
(cached) `~self._affine` to a copy of the rows. -/
def AffineTransform.inverse (T : AffineTransform) (coords : NpArr) :
    Except PyErr NpArr :=
  match coords.shape with
  | [d0, d1] =>
      if d1 = 2 then
        .ok ⟨[d0, d1], unPairs ((toPairs coords.data).map T.affine.inv.applyPt)⟩
      else .error .assertionError
  | _ => .error .assertionError

/-- A Python value passed as the `lng`/`lat` argument of
`RatPolyTransform.rev`: an int, a float, a tuple of numbers, a 1-D numpy
array, or something non-numeric (modelled by a string). -/
inductive PyVal where
  | pint (n : ℤ)
  | pfloat (q : ℚ)
  | ptuple (t : List ℚ)
  | parr (az : List ℚ)
  | pstr (s : String)
deriving DecidableEq

/-- `isinstance(var, (int, float, tuple))` — the wrap test in `rev`. -/
def PyVal.isScalarish : PyVal → Bool
  | .pint _ => true
  | .pfloat _ => true
  | .ptuple _ => true
  | _ => false

/-- `isinstance(var, np.ndarray)`. -/
def PyVal.isNdarray : PyVal → Bool
  | .parr _ => true
  | _ => false

/-- The coordinate list a value contributes after `rev`'s wrapping:
`np.array([v])` makes a one-element array of a scalar and a `(1, k)` array
of a `k`-tuple; an ndarray is used as it is. -/
def PyVal.coords : PyVal → List ℚ
  | .pint n => [(n : ℚ)]
  | .pfloat q => [q]
  | .ptuple t => t
  | .parr az => az
  | .pstr _ => []

/-- The `z` argument of `rev`: either a number (the default is `0`), which
`np.zeros_like(lng) + z` broadcasts over the input shape, or an ndarray
used as it is. -/
inductive ZVal where
  | zscalar (q : ℚ)
  | zarr (az : List ℚ)
deriving DecidableEq

/-- The body of `rev` after the input checks: `np.dstack([lng, lat, z])`
requires the three coordinate arrays to have the same shape (numpy raises
`ValueError` otherwise), and the remaining pipeline is elementwise
(`revList`). -/
def RatPolyTransform.revCore (T : RatPolyTransform) (castFn : ℚ → ℤ)
    (ls ps : List ℚ) (z : ZVal) : Except PyErr (List (ℤ × ℤ)) :=
  if ls.length = ps.length then
    let zs := match z with
      | .zscalar q => List.replicate ls.length q
      | .zarr az => az
    if zs.length = ls.length then .ok (T.revList castFn ls ps zs)
    else .error .valueError
  else .error .valueError

/-- `RatPolyTransform.rev`'s input dispatch: wrap when both `lng` and `lat`
are `int`/`float`/`tuple`; otherwise demand both be ndarrays, raising
`ValueError` when they are not (including when one is a scalar and the
other an array). -/
def RatPolyTransform.rev (T : RatPolyTransform) (castFn : ℚ → ℤ)
    (lng lat : PyVal) (z : ZVal) : Except PyErr (List (ℤ × ℤ)) :=
  if lng.isScalarish && lat.isScalarish then
    T.revCore castFn lng.coords lat.coords z
  else if lng.isNdarray && lat.isNdarray then
    T.revCore castFn lng.coords lat.coords z
  else .error .valueError

/-- `rev` with its default arguments `z=0` and `_type=np.int32`. -/
def RatPolyTransform.revDefault (T : RatPolyTransform) (lng lat : PyVal) :
    Except PyErr (List (ℤ × ℤ)) :=
  T.rev int32cast lng lat (.zscalar 0)

/-- The calibration metadata consumed by `calc_toa_gain_offset` (the
legacy shape): satellite and band identifiers, the per-band
absolute-calibration-factor and effective-bandwidth sequences, and the mean
sun elevation in degrees.  The `latlonhae` observer position and the
acquisition timestamp feed only the `ephem` solar-ephemeris computation,
which is abstracted into the `d_es` (Sun–Earth distance) argument below. -/
structure ToaMeta where
  satid : String
  bandid : String
  abscalfactor : List ℝ
  effbandwidth : List ℝ
  mean_sun_el : ℝ

/-- Modelled from the spec: the external per-sensor/band constants table of
`gbdxtools.ipe.constants` (`DG_ABSCAL_GAIN`, `DG_ABSCAL_OFFSET`,
`DG_ESUN`), which is not under `src/`.  Per the spec it is a read-only
lookup table keyed by sensor identifier strings, holding per-band gain,
offset and extraterrestrial solar irradiance sequences. -/
structure CalConstants where
  gain : String → List ℝ
  offset : String → List ℝ
  e_sun : String → List ℝ

/-- `calc_toa_gain_offset` of `gbdxtools/ipe/util.py`: the lookup key is
`satid.upper() + "_" + bandid.upper()`; `scale = (acf/ebw) * gain` is the
elementwise numpy product; `theta_s = 90 - mean_sun_el`;
`scale2 = (d_es ** 2 * np.pi) / (e_sun * np.cos(np.deg2rad(theta_s)))`
elementwise over `e_sun`; the result is `zip(scale, scale2, offset)`, which
truncates to the shortest sequence exactly as `zipWith`/`zip` do.  The
Sun–Earth distance `sun.earth_distance` computed by the external `ephem`
dependency is the abstract argument `d_es`. -/
noncomputable def calcToaGainOffset (tbl : CalConstants) (d_es : ℝ)
    (meta : ToaMeta) : List (ℝ × ℝ × ℝ) :=
  let key := meta.satid.toUpper ++ "_" ++ meta.bandid.toUpper
  let scale := List.zipWith (fun r g => r * g)
    (List.zipWith (fun ac eb => ac / eb) meta.abscalfactor meta.effbandwidth)
    (tbl.gain key)
  let theta_s := (90 : ℝ) - meta.mean_sun_el
  let scale2 := (tbl.e_sun key).map
    (fun es => (d_es ^ 2 * Real.pi) / (es * Real.cos (theta_s * (Real.pi / 180))))
  List.zipWith (fun s p => (s, p.1, p.2)) scale (scale2.zip (tbl.offset key))

/-- Composing with a translation and then with the opposite translation is
the identity on affine matrices. -/
theorem AffineM.mul_translation_cancel (M : AffineM) (s0 s1 : ℚ) :
    (M.mul (AffineM.translation s0 s1)).mul (AffineM.translation (-s0) (-s1)) = M := by
  cases M
  simp only [AffineM.mul, AffineM.translation, AffineM.mk.injEq]
  refine ⟨by ring, by ring, by ring, by ring, by ring, by ring⟩

/-- The library inverse of a non-degenerate affine matrix is a left inverse
pointwise. -/
theorem AffineM.inv_applyPt_applyPt (M : AffineM) (h : M.det ≠ 0) (p : ℚ × ℚ) :
    M.inv.applyPt (M.applyPt p) = p := by
  obtain ⟨x, y⟩ := p
  simp only [AffineM.det] at h
  simp only [AffineM.applyPt, AffineM.inv, AffineM.det, Prod.mk.injEq]
  constructor <;> field_simp <;> ring

theorem toPairs_unPairs (l : List (ℚ × ℚ)) : toPairs (unPairs l) = l := by
  induction l with
  | nil => rfl
  | cons p rest ih => simp [unPairs, toPairs, ih]

theorem unPairs_toPairs : ∀ d : List ℚ, d.length % 2 = 0 → unPairs (toPairs d) = d
  | [], _ => rfl
  | [x], h => by simp at h
  | x :: y :: rest, h => by
      have h' : rest.length % 2 = 0 := by
        simp only [List.length_cons] at h
        omega
      simp [toPairs, unPairs, unPairs_toPairs rest h']

/-- C1: for every `RatPolyTransform` and accepted lon/lat input,
`rev(lon, lat, z)` normalizes the geographic coordinates with the stored
geographic offset/scale, evaluates the 20-term rational-polynomial basis in
the order (1, L, P, H, LP, LH, PH, L², P², H², LPH, L³, LP², LH², L²P, P³,
PH², L²H, P²H, H³) for both coefficient matrices, divides numerator by
denominator element-wise, denormalizes into pixel space with the pixel
offset/scale, and casts to the requested output type, defaulting to a
truncating 32-bit integer cast. -/
theorem rev_matches_spec (T : RatPolyTransform) (castFn : ℚ → ℤ)
    (lng lat z : ℚ) :
    T.revPoint castFn lng lat z = T.revPointSpec castFn lng lat z ∧
    T.revPointDefault lng lat z = T.revPointSpec int32cast lng lat z := by
  constructor <;> rfl

/-- C8: `from_rpcs` builds the numerator and denominator matrices by
stacking the line and sample coefficient vectors row-wise, the geographic
scale as the per-axis reciprocal, the geographic offset as
`-offset * scale` per axis, the pixel scale and offset directly from the
line/sample metadata, and carries the spatial-reference-system string
through unchanged. -/
theorem fromRpcs_builds_fields (m : RpcMeta) :
    (RatPolyTransform.fromRpcs m).A = ![m.lineNumCoefs, m.sampleNumCoefs] ∧
    (RatPolyTransform.fromRpcs m).B = ![m.lineDenCoefs, m.sampleDenCoefs] ∧
    (RatPolyTransform.fromRpcs m).scale =
      ![1 / m.lonScale, 1 / m.latScale, 1 / m.heightScale] ∧
    (RatPolyTransform.fromRpcs m).offset =
      (fun i => -(![m.lonOffset, m.latOffset, m.heightOffset] i) *
        (RatPolyTransform.fromRpcs m).scale i) ∧
    (RatPolyTransform.fromRpcs m).px_scale = ![m.lineScale, m.sampleScale] ∧
    (RatPolyTransform.fromRpcs m).px_offset = ![m.lineOffset, m.sampleOffset] ∧
    (RatPolyTransform.fromRpcs m).proj = some m.spatialReferenceSystem := by
  refine ⟨rfl, rfl, rfl, ?_, rfl, rfl, rfl⟩
  funext i
  fin_cases i <;>
    simp [RatPolyTransform.fromRpcs, Matrix.cons_val_zero, Matrix.cons_val_one,
      Matrix.head_cons]

/-- C9: for either transform variant, subtracting a shift behaves
identically to adding its negation, producing the same resulting transform
state; Python tuples and lists of two scalars are both length-2 sequences,
modelled as `List ℚ`, and the general-sequence conjuncts cover them. -/
theorem sub_equals_add_negation (Tr : RatPolyTransform) (Ta : AffineTransform)
    (s0 s1 : ℚ) (other : List ℚ) :
    Tr.sub [s0, s1] = Tr.add [-s0, -s1] ∧
    Ta.sub [s0, s1] = Ta.add [-s0, -s1] ∧
    Tr.sub other = Tr.add (other.map (fun e => -e)) ∧
    Ta.sub other = Ta.add (other.map (fun e => -e)) :=
  ⟨rfl, rfl, rfl, rfl⟩

/-- C10: `RatPolyTransform.__add__` (and hence `__sub__`) keeps `A`, `B`,
the geographic offset and scale, and the pixel scale identical, changes
only the pixel offset by the shift, and always leaves the
spatial-reference-system field `None` whatever the receiver's value was,
whereas `AffineTransform.__add__` passes `proj=self.proj` through. -/
theorem add_frame_conditions (Tr : RatPolyTransform) (Ta : AffineTransform)
    (s0 s1 : ℚ) :
    Tr.add [s0, s1] =
      .ok ⟨Tr.A, Tr.B, Tr.offset, Tr.scale,
           (fun j => Tr.px_offset j - ![s0, s1] j), Tr.px_scale, none⟩ ∧
    Tr.sub [s0, s1] =
      .ok ⟨Tr.A, Tr.B, Tr.offset, Tr.scale,
           (fun j => Tr.px_offset j - ![-s0, -s1] j), Tr.px_scale, none⟩ ∧
    Ta.add [s0, s1] =
      .ok ⟨Ta.affine.mul (AffineM.translation s0 s1), Ta.proj⟩ ∧
    Ta.sub [s0, s1] =
      .ok ⟨Ta.affine.mul (AffineM.translation (-s0) (-s1)), Ta.proj⟩ :=
  ⟨rfl, rfl, rfl, rfl⟩

/-- C4: composing either transform with a shift and then with its negation
restores the original behaviour: the RPC pixel offset round-trips (all
other coefficient state is untouched, the spatial-reference-system field
excepted, and the forward/reverse mappings are unchanged for every input
coordinate), and the composed affine matrix round-trips to the original
transform exactly. -/
theorem translate_shift_roundtrip (Tr : RatPolyTransform)
    (Ta : AffineTransform) (s0 s1 : ℚ) :
    ((Tr.add [s0, s1]).bind (fun U => U.add [-s0, -s1])) =
      .ok ⟨Tr.A, Tr.B, Tr.offset, Tr.scale, Tr.px_offset, Tr.px_scale, none⟩ ∧
    (∀ castFn lng lat z,
      RatPolyTransform.revPoint
          ⟨Tr.A, Tr.B, Tr.offset, Tr.scale, Tr.px_offset, Tr.px_scale, none⟩
          castFn lng lat z
        = Tr.revPoint castFn lng lat z) ∧
    (∀ A_rev x y,
      RatPolyTransform.fwdPoint
          ⟨Tr.A, Tr.B, Tr.offset, Tr.scale, Tr.px_offset, Tr.px_scale, none⟩
          A_rev x y
        = Tr.fwdPoint A_rev x y) ∧
    ((Ta.add [s0, s1]).bind (fun U => U.add [-s0, -s1])) = .ok Ta := by
  refine ⟨?_, fun castFn lng lat z => rfl, fun A_rev x y => rfl, ?_⟩
  · have hpx : (fun j => (Tr.px_offset j - ![s0, s1] j) - ![-s0, -s1] j)
        = Tr.px_offset := by
      funext j
      fin_cases j <;>
        simp [Matrix.cons_val_zero, Matrix.cons_val_one, Matrix.head_cons]
    calc ((Tr.add [s0, s1]).bind (fun U => U.add [-s0, -s1]))
        = Except.ok (⟨Tr.A, Tr.B, Tr.offset, Tr.scale,
            (fun j => (Tr.px_offset j - ![s0, s1] j) - ![-s0, -s1] j),
            Tr.px_scale, none⟩ : RatPolyTransform) := rfl
      _ = Except.ok (⟨Tr.A, Tr.B, Tr.offset, Tr.scale, Tr.px_offset,
            Tr.px_scale, none⟩ : RatPolyTransform) := by rw [hpx]
  · calc ((Ta.add [s0, s1]).bind (fun U => U.add [-s0, -s1]))
        = Except.ok (⟨(Ta.affine.mul (AffineM.translation s0 s1)).mul
            (AffineM.translation (-s0) (-s1)), Ta.proj⟩ : AffineTransform) := rfl
      _ = Except.ok Ta := by rw [AffineM.mul_translation_cancel]

/-- C5: calling `fwd`/`rev` with a batch of coordinates yields exactly the
results of calling the operation once per coordinate individually — the
batch outputs are the per-element maps over the zipped inputs.  (The
forward batch path is, however, implemented as per-element recursion in the
source, not as a vectorized operation; see the `fwdList` doc comment.) -/
theorem batch_equals_per_element (T : RatPolyTransform)
    (A_rev : Fin 20 → Fin 2 → ℚ) (castFn : ℚ → ℤ)
    (xs ys ls ps zs : List ℚ) :
    T.fwdList A_rev xs ys =
      (xs.zip ys).map (fun p => T.fwdPoint A_rev p.1 p.2) ∧
    T.revList castFn ls ps zs =
      (ls.zip (ps.zip zs)).map
        (fun t => T.revPoint castFn t.1 t.2.1 t.2.2) := by
  constructor
  · induction xs generalizing ys with
    | nil => cases ys <;> rfl
    | cons x xs ih =>
        cases ys with
        | nil => rfl
        | cons y ys => simp [RatPolyTransform.fwdList, ih]
  · induction ls generalizing ps zs with
    | nil => cases ps <;> cases zs <;> rfl
    | cons l ls ih =>
        cases ps with
        | nil => rfl
        | cons p ps =>
            cases zs with
            | nil => rfl
            | cons z zs => simp [RatPolyTransform.revList, ih]

/-- A concrete RPC transform fixture (all coefficients zero). -/
def T0 : RatPolyTransform :=
  ⟨fun _ _ => 0, fun _ _ => 0, fun _ => 0, fun _ => 0, fun _ => 0,
   fun _ => 0, none⟩

/-- A concrete pseudo-inverse fixture for `fwd`. -/
def A0rev : Fin 20 → Fin 2 → ℚ := fun _ _ => 0

/-- A concrete affine transform fixture, with determinant `2·1 − 1·1 = 1`. -/
def Ta0 : AffineTransform := ⟨⟨2, 1, 5, 1, 1, 7⟩, some "EPSG:4326"⟩

/-- C6: a numpy coordinate array whose shape is not N×2 makes the batch
entry points — the RPC `__call__` and the affine `__call__`/`inverse` —
fail with a not-implemented/shape (assertion) error rather than produce a
result. -/
theorem bad_shape_signals_error (Tr : RatPolyTransform)
    (A_rev : Fin 20 → Fin 2 → ℚ) (Ta : AffineTransform) (c : NpArr)
    (h : ∀ n, c.shape ≠ [n, 2]) :
    (∃ e1, Tr.call A_rev c = .error e1) ∧
    (∃ e2, Ta.call c = .error e2) ∧
    (∃ e3, Ta.inverse c = .error e3) := by
  obtain ⟨shape, data⟩ := c
  rcases shape with _ | ⟨n0, _ | ⟨n1, _ | ⟨n2, rest⟩⟩⟩
  · exact ⟨⟨_, rfl⟩, ⟨_, rfl⟩, ⟨_, rfl⟩⟩
  · exact ⟨⟨_, rfl⟩, ⟨_, rfl⟩, ⟨_, rfl⟩⟩
  · have hn : n1 ≠ 2 := fun he => h n0 (by rw [he])
    refine ⟨⟨.assertionError, ?_⟩, ⟨.assertionError, ?_⟩,
            ⟨.assertionError, ?_⟩⟩ <;>
      simp [RatPolyTransform.call, AffineTransform.call,
        AffineTransform.inverse, hn]
  · exact ⟨⟨_, rfl⟩, ⟨_, rfl⟩, ⟨_, rfl⟩⟩

theorem bad_shape_signals_error_witness :
    (∀ n, (⟨[3], [1, 2, 3]⟩ : NpArr).shape ≠ [n, 2]) ∧
    ((∃ e1, T0.call A0rev ⟨[3], [1, 2, 3]⟩ = .error e1) ∧
     (∃ e2, Ta0.call ⟨[3], [1, 2, 3]⟩ = .error e2) ∧
     (∃ e3, Ta0.inverse ⟨[3], [1, 2, 3]⟩ = .error e3)) :=
  ⟨fun n h => by simp at h,
   bad_shape_signals_error T0 A0rev Ta0 ⟨[3], [1, 2, 3]⟩
     (fun n h => by simp at h)⟩

/-- C3: for an affine transform built from a non-singular matrix and any
N×2 coordinate array, `invert(apply(coords))` is exactly `coords` (exact
rational arithmetic models the algebraically exact affine inverse; the
resulting claim is exactness up to floating-point rounding). -/
theorem affine_invert_apply_roundtrip (T : AffineTransform) (c : NpArr)
    (n : ℕ) (hs : c.shape = [n, 2]) (hd : c.data.length = 2 * n)
    (hdet : T.affine.det ≠ 0) :
    (T.call c).bind T.inverse = .ok c := by
  obtain ⟨shape, data⟩ := c
  simp only at hs hd
  subst hs
  have h2 : ∀ l : List (ℚ × ℚ),
      (l.map T.affine.applyPt).map T.affine.inv.applyPt = l := by
    intro l
    induction l with
    | nil => rfl
    | cons p rest ih => simp [AffineM.inv_applyPt_applyPt T.affine hdet, ih]
  calc (AffineTransform.call T ⟨[n, 2], data⟩).bind T.inverse
      = .ok ⟨[n, 2], unPairs
          ((toPairs (unPairs ((toPairs data).map T.affine.applyPt))).map
            T.affine.inv.applyPt)⟩ := rfl
    _ = .ok ⟨[n, 2], unPairs
          (((toPairs data).map T.affine.applyPt).map T.affine.inv.applyPt)⟩ := by
        rw [toPairs_unPairs]
    _ = .ok ⟨[n, 2], unPairs (toPairs data)⟩ := by rw [h2]
    _ = .ok ⟨[n, 2], data⟩ := by rw [unPairs_toPairs data (by omega)]

theorem affine_invert_apply_roundtrip_witness :
    (⟨[2, 2], [0, 0, 1, 3]⟩ : NpArr).shape = [2, 2] ∧
    (⟨[2, 2], [0, 0, 1, 3]⟩ : NpArr).data.length = 2 * 2 ∧
    Ta0.affine.det ≠ 0 ∧
    (Ta0.call ⟨[2, 2], [0, 0, 1, 3]⟩).bind Ta0.inverse =
      .ok ⟨[2, 2], [0, 0, 1, 3]⟩ :=
  ⟨rfl, rfl, by norm_num [Ta0, AffineM.det],
   affine_invert_apply_roundtrip Ta0 ⟨[2, 2], [0, 0, 1, 3]⟩ 2 rfl rfl
     (by norm_num [Ta0, AffineM.det])⟩

/-- C7 counterexample: the claim as stated accepts every scalar/tuple lon
paired with every array-like lat, but the source raises `ValueError` for an
int lon paired with an ndarray lat — the wrap branch requires both inputs
to be int/float/tuple and the fallback requires both to be ndarrays, so a
mixed pair of individually-accepted kinds is rejected. -/
theorem rev_mixed_input_valueError :
    T0.revDefault (.pint 0) (.parr [0]) = .error .valueError := rfl

/-- C7 (amended): scalar (int/float) and tuple lon/lat inputs are accepted
when both are of those kinds and wrap to equal-length coordinate arrays;
array inputs are accepted when both are equal-length arrays; a mixed
scalar-or-tuple/array pair raises the same `ValueError` as a non-numeric,
non-array input does; elevation `z` defaults to zero broadcast to the input
shape, and the output type defaults to the 32-bit integer cast. -/
theorem rev_input_acceptance (T : RatPolyTransform) (castFn : ℚ → ℤ) :
    (∀ lng lat : PyVal, lng.isScalarish = true → lat.isScalarish = true →
      lng.coords.length = lat.coords.length →
      T.rev castFn lng lat (.zscalar 0) =
        .ok (T.revList castFn lng.coords lat.coords
               (List.replicate lng.coords.length 0))) ∧
    (∀ a b : List ℚ, a.length = b.length →
      T.rev castFn (.parr a) (.parr b) (.zscalar 0) =
        .ok (T.revList castFn a b (List.replicate a.length 0))) ∧
    (∀ lng lat : PyVal, lng.isScalarish = false → lng.isNdarray = false →
      T.rev castFn lng lat (.zscalar 0) = .error .valueError) ∧
    (∀ lng lat : PyVal, lat.isScalarish = false → lat.isNdarray = false →
      T.rev castFn lng lat (.zscalar 0) = .error .valueError) ∧
    (∀ (lng lat : PyVal) (q : ℚ),
      T.rev castFn lng lat (.zscalar q) =
        T.rev castFn lng lat (.zarr (List.replicate lng.coords.length q))) ∧
    (∀ lng lat : PyVal,
      T.revDefault lng lat = T.rev int32cast lng lat (.zscalar 0)) := by
  refine ⟨?_, ?_, ?_, ?_, fun lng lat q => rfl, fun lng lat => rfl⟩
  · intro lng lat h1 h2 hlen
    simp [RatPolyTransform.rev, h1, h2, RatPolyTransform.revCore, hlen]
  · intro a b hlen
    simp [RatPolyTransform.rev, PyVal.isScalarish, PyVal.isNdarray,
      PyVal.coords, RatPolyTransform.revCore, hlen]
  · intro lng lat h1 h2
    simp [RatPolyTransform.rev, h1, h2]
  · intro lng lat h1 h2
    simp [RatPolyTransform.rev, h1, h2]

theorem rev_input_acceptance_witness :
    ((PyVal.ptuple [1, 2]).isScalarish = true ∧
     (PyVal.ptuple [3, 4]).isScalarish = true ∧
     (PyVal.ptuple [1, 2]).coords.length = (PyVal.ptuple [3, 4]).coords.length) ∧
    T0.rev int32cast (.ptuple [1, 2]) (.ptuple [3, 4]) (.zscalar 0) =
      .ok (T0.revList int32cast (PyVal.ptuple [1, 2]).coords
             (PyVal.ptuple [3, 4]).coords
             (List.replicate (PyVal.ptuple [1, 2]).coords.length 0)) ∧
    (([0] : List ℚ).length = ([5] : List ℚ).length) ∧
    T0.rev int32cast (.parr [0]) (.parr [5]) (.zscalar 0) =
      .ok (T0.revList int32cast [0] [5]
             (List.replicate ([0] : List ℚ).length 0)) ∧
    ((PyVal.pstr "x").isScalarish = false ∧
     (PyVal.pstr "x").isNdarray = false) ∧
    T0.rev int32cast (.pstr "x") (.pfloat 0) (.zscalar 0) =
      .error .valueError ∧
    T0.rev int32cast (.pfloat 0) (.pstr "x") (.zscalar 0) =
      .error .valueError ∧
    T0.rev int32cast (.pint 1) (.pint 2) (.zscalar 5) =
      T0.rev int32cast (.pint 1) (.pint 2)
        (.zarr (List.replicate (PyVal.pint 1).coords.length 5)) ∧
    T0.revDefault (.pint 1) (.pint 2) =
      T0.rev int32cast (.pint 1) (.pint 2) (.zscalar 0) :=
  ⟨⟨rfl, rfl, rfl⟩,
   (rev_input_acceptance T0 int32cast).1 _ _ rfl rfl rfl,
   rfl,
   (rev_input_acceptance T0 int32cast).2.1 [0] [5] rfl,
   ⟨rfl, rfl⟩,
   (rev_input_acceptance T0 int32cast).2.2.1 _ _ rfl rfl,
   (rev_input_acceptance T0 int32cast).2.2.2.1 _ _ rfl rfl,
   (rev_input_acceptance T0 int32cast).2.2.2.2.1 _ _ 5,
   (rev_input_acceptance T0 int32cast).2.2.2.2.2 _ _⟩

/-- C2: `calc_toa_gain_offset` returns one
`(scale, reflectance_scale, offset)` triple per band in input order, with
`scale = (acf/ebw) * table_gain[key]`,
`reflectance_scale = (d_es² * π) / (e_sun[key] * cos(radians(90 − sun_el)))`
and `offset = table_offset[key]`, for the key
`satid.upper() + "_" + bandid.upper()`. -/
theorem toa_gain_offset_triples (tbl : CalConstants) (d_es : ℝ)
    (meta : ToaMeta) (n : ℕ)
    (ha : meta.abscalfactor.length = n)
    (he : meta.effbandwidth.length = n)
    (hg : (tbl.gain (meta.satid.toUpper ++ "_" ++ meta.bandid.toUpper)).length = n)
    (ho : (tbl.offset (meta.satid.toUpper ++ "_" ++ meta.bandid.toUpper)).length = n)
    (hsun : (tbl.e_sun (meta.satid.toUpper ++ "_" ++ meta.bandid.toUpper)).length = n) :
    (calcToaGainOffset tbl d_es meta).length = n ∧
    ∀ i, i < n →
      (calcToaGainOffset tbl d_es meta).getD i (0, 0, 0) =
        (meta.abscalfactor.getD i 0 / meta.effbandwidth.getD i 0 *
           (tbl.gain (meta.satid.toUpper ++ "_" ++ meta.bandid.toUpper)).getD i 0,
         (d_es ^ 2 * Real.pi) /
           ((tbl.e_sun (meta.satid.toUpper ++ "_" ++ meta.bandid.toUpper)).getD i 0 *
             Real.cos ((90 - meta.mean_sun_el) * (Real.pi / 180))),
         (tbl.offset (meta.satid.toUpper ++ "_" ++ meta.bandid.toUpper)).getD i 0) := by
  have hlen : (calcToaGainOffset tbl d_es meta).length = n := by
    simp [calcToaGainOffset, ha, he, hg, ho, hsun]
  refine ⟨hlen, fun i hi => ?_⟩
  rw [List.getD_eq_getElem _ _ (by rw [hlen]; exact hi),
      List.getD_eq_getElem _ _ (by rw [ha]; exact hi),
      List.getD_eq_getElem _ _ (by rw [he]; exact hi),
      List.getD_eq_getElem _ _ (by rw [hg]; exact hi),
      List.getD_eq_getElem _ _ (by rw [hsun]; exact hi),
      List.getD_eq_getElem _ _ (by rw [ho]; exact hi)]
  simp [calcToaGainOffset, List.getElem_zipWith, List.getElem_zip,
    List.getElem_map]

/-- Concrete calibration fixtures for the witness. -/
def tbl0 : CalConstants := ⟨fun _ => [3], fun _ => [7], fun _ => [2]⟩

def meta0 : ToaMeta := ⟨"wv02", "ms1", [2], [1], 90⟩

theorem toa_gain_offset_triples_witness :
    (meta0.abscalfactor.length = 1 ∧ meta0.effbandwidth.length = 1 ∧
     (tbl0.gain (meta0.satid.toUpper ++ "_" ++ meta0.bandid.toUpper)).length = 1 ∧
     (tbl0.offset (meta0.satid.toUpper ++ "_" ++ meta0.bandid.toUpper)).length = 1 ∧
     (tbl0.e_sun (meta0.satid.toUpper ++ "_" ++ meta0.bandid.toUpper)).length = 1) ∧
    ((calcToaGainOffset tbl0 1 meta0).length = 1 ∧
     ∀ i, i < 1 →
       (calcToaGainOffset tbl0 1 meta0).getD i (0, 0, 0) =
         (meta0.abscalfactor.getD i 0 / meta0.effbandwidth.getD i 0 *
            (tbl0.gain (meta0.satid.toUpper ++ "_" ++ meta0.bandid.toUpper)).getD i 0,
          ((1 : ℝ) ^ 2 * Real.pi) /
            ((tbl0.e_sun (meta0.satid.toUpper ++ "_" ++ meta0.bandid.toUpper)).getD i 0 *
              Real.cos ((90 - meta0.mean_sun_el) * (Real.pi / 180))),
          (tbl0.offset (meta0.satid.toUpper ++ "_" ++ meta0.bandid.toUpper)).getD i 0)) :=
  ⟨⟨rfl, rfl, rfl, rfl, rfl⟩,
   toa_gain_offset_triples tbl0 1 meta0 1 rfl rfl rfl rfl rfl⟩

end Gbdx
